import Mathlib

/-!
Shallow embedding of the adaptive CPU core power-management daemon
(src/cpualgo.py and src/cpupowalgo.py): the threshold constants, the
core-state registry, the decision step manage_core_activity of both
files, the metric getters, the kernel write shims, and the process
rebalancer of cpupowalgo.py. Floats in the source only ever hold small
decimal constants and comparison results, so they are embedded as
rationals; machine integers never approach overflow in the source, so
they are embedded as naturals.
-/

/-- Threshold constants fixed at module scope in each source file
(cpualgo.py lines 7-10, cpupowalgo.py lines 6-9). -/
structure Thresholds where
  LOAD_THRESHOLD : ℚ
  IRQ_THRESHOLD : ℕ
  IPC_THRESHOLD : ℚ
  MIN_ACTIVE_CORES : ℕ
deriving DecidableEq

/-- Constants of cpualgo.py: LOAD_THRESHOLD = 10, IRQ_THRESHOLD = 100000,
IPC_THRESHOLD = 0.7, MIN_ACTIVE_CORES = 1. -/
def cpualgoThresholds : Thresholds :=
  { LOAD_THRESHOLD := 10, IRQ_THRESHOLD := 100000,
    IPC_THRESHOLD := 0.7, MIN_ACTIVE_CORES := 1 }

/-- Constants of cpupowalgo.py: LOAD_THRESHOLD = 10, IRQ_THRESHOLD = 100000,
IPC_THRESHOLD = 0.9, MIN_ACTIVE_CORES = 1. -/
def cpupowThresholds : Thresholds :=
  { LOAD_THRESHOLD := 10, IRQ_THRESHOLD := 100000,
    IPC_THRESHOLD := 0.9, MIN_ACTIVE_CORES := 1 }

/-- Per-cycle metrics snapshot handed to manage_core_activity:
cpu_load (percent), irq_count, ipc. -/
structure Metrics where
  cpu_load : ℚ
  irq_count : ℕ
  ipc : ℚ

/-- Registry state of cpualgo.py: the global python sets active_cores and
offline_cores (cpualgo.py lines 134-137). -/
structure CoreState where
  active : Finset ℕ
  offline : Finset ℕ
deriving DecidableEq

/-- Registry state of cpupowalgo.py: active_cores is a python list
(cpupowalgo.py line 84 builds it as a list; line 119 pops its last element;
line 130 appends), offline_cores is a set. -/
structure CoreStateP where
  active : List ℕ
  offline : Finset ℕ
deriving DecidableEq

/-- Outcome of one privileged kernel write: the sysfs write either succeeds
or raises, which the source logs as an error. -/
inductive WriteResult where
  | ok
  | writeError
deriving DecidableEq

/-- Kernel side effect requested by the decision step: an online-state write
for one core (with the outcome the environment gave it) or a governor
selection. -/
inductive KernelEvent where
  | setOnline (core : ℕ) (online : Bool) (res : WriteResult)
  | setGovernor (g : String)
deriving DecidableEq

/-- Embedding of set_cpu_online_state of cpualgo.py (lines 33-45): core 0 is
skipped entirely (no write attempted); for any other core the write is
attempted and its outcome wr core is logged, never propagated. -/
def set_cpu_online_state_algo (wr : ℕ → WriteResult) (core : ℕ) (online : Bool) :
    List KernelEvent :=
  if core = 0 then [] else [KernelEvent.setOnline core online (wr core)]

/-- Embedding of set_cpu_online_state of cpupowalgo.py (lines 54-61): the
write is attempted for every core id, core 0 included; an IOError is caught
and logged, never propagated. -/
def set_cpu_online_state_pow (wr : ℕ → WriteResult) (core : ℕ) (online : Bool) :
    List KernelEvent :=
  [KernelEvent.setOnline core online (wr core)]

/-- Embedding of manage_core_activity of cpualgo.py (lines 83-106). The
python set.pop on active_cores and offline_cores removes an arbitrary
element; the choice is abstracted as the function pick applied to the set
being popped. The returned list records the kernel calls made, in order. -/
def manage_core_activity (T : Thresholds) (pick : Finset ℕ → ℕ) (wr : ℕ → WriteResult)
    (m : Metrics) (s : CoreState) : CoreState × List KernelEvent :=
  if m.cpu_load < T.LOAD_THRESHOLD ∧ m.irq_count < T.IRQ_THRESHOLD ∧
      m.ipc < T.IPC_THRESHOLD ∧ T.MIN_ACTIVE_CORES < s.active.card then
    let c := pick s.active
    (⟨s.active.erase c, insert c s.offline⟩,
      set_cpu_online_state_algo wr c false ++ [KernelEvent.setGovernor "powersave"])
  else if T.LOAD_THRESHOLD ≤ m.cpu_load ∨ T.IRQ_THRESHOLD ≤ m.irq_count ∨
      T.IPC_THRESHOLD ≤ m.ipc then
    if s.offline.Nonempty then
      let c := pick s.offline
      (⟨insert c s.active, s.offline.erase c⟩,
        set_cpu_online_state_algo wr c true ++ [KernelEvent.setGovernor "performance"])
    else (s, [])
  else (s, [])

/-- Embedding of the decision part of manage_core_activity of cpupowalgo.py
(lines 109-133): active_cores is a list, list.pop removes the last element,
activation appends; offline_cores is a set with arbitrary pop (pick). -/
def manage_decision_pow (pick : Finset ℕ → ℕ) (wr : ℕ → WriteResult)
    (m : Metrics) (s : CoreStateP) : CoreStateP × List KernelEvent :=
  if m.cpu_load < cpupowThresholds.LOAD_THRESHOLD ∧
      m.irq_count < cpupowThresholds.IRQ_THRESHOLD ∧
      m.ipc < cpupowThresholds.IPC_THRESHOLD ∧
      cpupowThresholds.MIN_ACTIVE_CORES < s.active.length then
    match s.active.getLast? with
    | some c =>
      (⟨s.active.dropLast, insert c s.offline⟩,
        set_cpu_online_state_pow wr c false ++ [KernelEvent.setGovernor "powersave"])
    | none => (s, [])
  else if cpupowThresholds.LOAD_THRESHOLD ≤ m.cpu_load ∨
      cpupowThresholds.IRQ_THRESHOLD ≤ m.irq_count ∨
      cpupowThresholds.IPC_THRESHOLD ≤ m.ipc then
    if s.offline.Nonempty then
      let c := pick s.offline
      (⟨s.active ++ [c], s.offline.erase c⟩,
        set_cpu_online_state_pow wr c true ++ [KernelEvent.setGovernor "performance"])
    else (s, [])
  else (s, [])

/-- Embedding of get_ipc of cpualgo.py (lines 24-31): returns the hardcoded
constant 0.75; the except branch is unreachable. -/
def get_ipc_algo : ℚ := 0.75

/-- Policy branch chosen by one execution of the decision step. -/
inductive Branch where
  | deactivate
  | activate
  | none
deriving DecidableEq

/-- Branch selected by manage_core_activity, read off from its if/elif
conditions (cpualgo.py lines 89, 99-100; cpupowalgo.py lines 116, 126-127). -/
def branchTaken (T : Thresholds) (m : Metrics) (s : CoreState) : Branch :=
  if m.cpu_load < T.LOAD_THRESHOLD ∧ m.irq_count < T.IRQ_THRESHOLD ∧
      m.ipc < T.IPC_THRESHOLD ∧ T.MIN_ACTIVE_CORES < s.active.card then
    Branch.deactivate
  else if T.LOAD_THRESHOLD ≤ m.cpu_load ∨ T.IRQ_THRESHOLD ≤ m.irq_count ∨
      T.IPC_THRESHOLD ≤ m.ipc then
    if s.offline.Nonempty then Branch.activate else Branch.none
  else Branch.none

/-- Projection keeping only the governor choices from an event list. -/
def govOf : KernelEvent → Option String
  | KernelEvent.setGovernor g => some g
  | KernelEvent.setOnline _ _ _ => none

/-- Governor choices emitted under each policy branch. -/
def govList : Branch → List String
  | Branch.deactivate => ["powersave"]
  | Branch.activate => ["performance"]
  | Branch.none => []

/-- Initial registry of cpualgo.py main (lines 135-137):
active_cores = set(range(1, MAX_CORES)), offline_cores = set(). -/
def initState (maxCores : ℕ) : CoreState :=
  ⟨(Finset.range maxCores).erase 0, ∅⟩

/-- States reachable in cpualgo.py from the initial registry by any sequence
of manage_core_activity executions, each with arbitrary metrics and
arbitrary kernel write outcomes. -/
inductive ReachableAlgo (pick : Finset ℕ → ℕ) (maxCores : ℕ) : CoreState → Prop where
  | init : ReachableAlgo pick maxCores (initState maxCores)
  | step (wr : ℕ → WriteResult) (m : Metrics) (s : CoreState) :
      ReachableAlgo pick maxCores s →
      ReachableAlgo pick maxCores (manage_core_activity cpualgoThresholds pick wr m s).1

/-- States reachable in the main loop of cpualgo.py (lines 143-177), where
every cycle passes ipc = get_ipc() to manage_core_activity while load and
irq vary freely. -/
inductive ReachableAlgoMain (pick : Finset ℕ → ℕ) (maxCores : ℕ) : CoreState → Prop where
  | init : ReachableAlgoMain pick maxCores (initState maxCores)
  | step (wr : ℕ → WriteResult) (load : ℚ) (irq : ℕ) (s : CoreState) :
      ReachableAlgoMain pick maxCores s →
      ReachableAlgoMain pick maxCores
        (manage_core_activity cpualgoThresholds pick wr ⟨load, irq, get_ipc_algo⟩ s).1

/-- Well-behaved pop abstraction: python set.pop always returns a member of
the popped set. -/
def GoodPick (pick : Finset ℕ → ℕ) : Prop :=
  ∀ t : Finset ℕ, t.Nonempty → pick t ∈ t

/-- Concrete pop choice returning the smallest member. -/
def pickMin (t : Finset ℕ) : ℕ :=
  if h : t.Nonempty then t.min' h else 0

/-- Concrete pop choice returning the largest member. -/
def pickMax (t : Finset ℕ) : ℕ :=
  if h : t.Nonempty then t.max' h else 0

/-- Parsed line of /proc/interrupts as consumed by get_irq_count: whether
the line mentions interface eno1, and the counter in its second column. -/
structure IrqLine where
  isEno1 : Bool
  count : ℕ
deriving DecidableEq

/-- Embedding of get_irq_count (cpualgo.py lines 14-22, cpupowalgo.py lines
22-30): sums the counters of the eno1 lines; any failure of the read or of
the parse is caught and degrades the metric to 0. -/
def get_irq_count (readInterrupts : Except Unit (List IrqLine)) : ℕ :=
  match readInterrupts with
  | Except.ok lines => ((lines.filter (fun l => l.isEno1)).map (fun l => l.count)).sum
  | Except.error _ => 0

/-- Embedding of get_ipc of cpupowalgo.py (lines 32-44): divides parsed
instructions by parsed cycles; a failure of the perf invocation or of the
parse is caught and degrades the metric to 0. Division by zero in the
source raises ZeroDivisionError, which the same handler turns into 0, and
rational division by zero is 0, so one expression covers both paths. -/
def get_ipc_pow (perfRead : Except Unit (ℕ × ℕ)) : ℚ :=
  match perfRead with
  | Except.ok p => (p.1 : ℚ) / (p.2 : ℚ)
  | Except.error _ => 0

/-- Embedding of get_active_cores of cpupowalgo.py (lines 82-92): scans core
ids 0, 1, ..., numCpus - 1, keeps those whose sysfs online file exists
(sysOnline c is some content) and reads "1"; a missing file
(FileNotFoundError) skips the core. -/
def get_active_cores (sysOnline : ℕ → Option String) (numCpus : ℕ) : List ℕ :=
  (List.range numCpus).filter (fun c => sysOnline c == some "1")

/-- Live process as seen by the rebalancer of cpupowalgo.py: pid and cpu_num
are the fields the source reads (line 137); affinity is the actual affinity
mask of the process in the operating system, used to state the spec
property; vanished models a process raising NoSuchProcess or AccessDenied
during handling, denied a process whose affinity change is rejected. -/
structure Proc where
  pid : ℕ
  cpu_num : ℕ
  affinity : List ℕ
  vanished : Bool
  denied : Bool
deriving DecidableEq

/-- Embedding of the valid_active_cores list comprehension (cpupowalgo.py
line 144): fresh kernel read of each active core's online file, keeping the
cores that read "1". A failing read raises CalledProcessError, which no
handler catches, hence the Except error propagates. -/
def validActiveCores (readOnline : ℕ → Except Unit String) : List ℕ → Except Unit (List ℕ)
  | [] => Except.ok []
  | c :: cs =>
    match readOnline c with
    | Except.error e => Except.error e
    | Except.ok st =>
      match validActiveCores readOnline cs with
      | Except.error e => Except.error e
      | Except.ok rest => Except.ok (if st = "1" then c :: rest else rest)

/-- What the rebalancer did with one process. -/
inductive RebalanceResult where
  | reassigned (pid : ℕ) (core : ℕ)
  | skipped
  | warned
deriving DecidableEq

/-- Embedding of one iteration of the rebalancing loop of cpupowalgo.py
(lines 137-157): a vanished process is skipped by the outer handler; a
process already on an active core is left alone; otherwise the verified
online active cores are computed (a failing read propagates), and the
process is reassigned to the first of them, or its affinity change is
denied and swallowed, or a warning is emitted when no verified core
exists. -/
def rebalanceOne (active : List ℕ) (readOnline : ℕ → Except Unit String) (p : Proc) :
    Except Unit RebalanceResult :=
  if p.vanished then Except.ok RebalanceResult.skipped
  else if p.cpu_num ∈ active then Except.ok RebalanceResult.skipped
  else
    match validActiveCores readOnline active with
    | Except.error e => Except.error e
    | Except.ok [] => Except.ok RebalanceResult.warned
    | Except.ok (c :: _) =>
      if p.denied then Except.ok RebalanceResult.skipped
      else Except.ok (RebalanceResult.reassigned p.pid c)

/-- Embedding of the whole rebalancing loop over the enumerated processes;
the first uncaught read failure aborts the loop and propagates. -/
def rebalance (active : List ℕ) (readOnline : ℕ → Except Unit String) :
    List Proc → Except Unit (List RebalanceResult)
  | [] => Except.ok []
  | p :: ps =>
    match rebalanceOne active readOnline p with
    | Except.error e => Except.error e
    | Except.ok r =>
      match rebalance active readOnline ps with
      | Except.error e => Except.error e
      | Except.ok rs => Except.ok (r :: rs)

/-- Boolean view of an Except: true exactly on ok. -/
def exceptOk {ε α : Type} : Except ε α → Bool
  | Except.ok _ => true
  | Except.error _ => false

/-- Environment of one cpualgo.py cycle: the load sample, the interrupts
read, and the outcomes of the privileged writes. -/
structure EnvAlgo where
  cpu_load : ℚ
  irqRead : Except Unit (List IrqLine)
  wr : ℕ → WriteResult

/-- Environment of one cpupowalgo.py cycle: additionally the perf read for
ipc, the fresh per-core online reads used by the rebalancer, and the
enumerated processes. -/
structure EnvPow where
  cpu_load : ℚ
  irqRead : Except Unit (List IrqLine)
  perf : Except Unit (ℕ × ℕ)
  wr : ℕ → WriteResult
  readOnline : ℕ → Except Unit String
  procs : List Proc

/-- One cycle of the cpualgo.py main loop (lines 143-177), restricted to the
metric acquisition and the decision step; the display functions are
read-only and wrap each per-core read in its own handler. An error value
would mean an exception escaping the cycle; every fallible operation of
this file is handled, so the cycle always produces ok. -/
def cycle_algo (pick : Finset ℕ → ℕ) (env : EnvAlgo) (s : CoreState) :
    Except Unit (CoreState × List KernelEvent) :=
  let irq := get_irq_count env.irqRead
  let ipc := get_ipc_algo
  Except.ok (manage_core_activity cpualgoThresholds pick env.wr
    ⟨env.cpu_load, irq, ipc⟩ s)

/-- One cycle of the cpupowalgo.py main loop (lines 172-188), restricted to
the metric acquisition and manage_core_activity, whose rebalancing half can
let a CalledProcessError escape; such an escape is the error value. -/
def cycle_pow (pick : Finset ℕ → ℕ) (env : EnvPow) (s : CoreStateP) :
    Except Unit (CoreStateP × List KernelEvent × List RebalanceResult) :=
  let irq := get_irq_count env.irqRead
  let ipc := get_ipc_pow env.perf
  let ds := manage_decision_pow pick env.wr ⟨env.cpu_load, irq, ipc⟩ s
  Except.map (fun rs => (ds.1, ds.2, rs))
    (rebalance ds.1.active env.readOnline env.procs)

/-- Concrete cycle environment in which every fresh online verification
read fails, with one process sitting on a core outside the active list. -/
def envPowFail : EnvPow :=
  { cpu_load := 50, irqRead := Except.error (), perf := Except.error (),
    wr := fun _ => WriteResult.ok, readOnline := fun _ => Except.error (),
    procs := [⟨7, 5, [5], false, false⟩] }

/-- Concrete cycle environment in which every fresh online verification
read succeeds. -/
def envPowOk : EnvPow :=
  { cpu_load := 50, irqRead := Except.ok [⟨true, 120⟩], perf := Except.ok (3, 4),
    wr := fun _ => WriteResult.ok, readOnline := fun _ => Except.ok "1",
    procs := [⟨7, 5, [5], false, false⟩] }

/-- Concrete cycle environment in which both sub-metric acquisitions fail
while the verification reads succeed. -/
def envPowDegraded : EnvPow :=
  { cpu_load := 5, irqRead := Except.error (), perf := Except.error (),
    wr := fun _ => WriteResult.ok, readOnline := fun _ => Except.ok "1",
    procs := [] }

/-!
Helper lemmas shared by the claim theorems.
-/

/-- The pop abstraction pickMin always returns a member. -/
theorem goodPick_pickMin : GoodPick pickMin := by
  intro t ht
  rw [pickMin, dif_pos ht]
  exact t.min'_mem ht

/-- The pop abstraction pickMax always returns a member. -/
theorem goodPick_pickMax : GoodPick pickMax := by
  intro t ht
  rw [pickMax, dif_pos ht]
  exact t.max'_mem ht

/-- Evaluation of the decision step when the deactivation guard holds. -/
theorem manage_deactivate_eq (T : Thresholds) (pick : Finset ℕ → ℕ) (wr : ℕ → WriteResult)
    (m : Metrics) (s : CoreState)
    (h : m.cpu_load < T.LOAD_THRESHOLD ∧ m.irq_count < T.IRQ_THRESHOLD ∧
      m.ipc < T.IPC_THRESHOLD ∧ T.MIN_ACTIVE_CORES < s.active.card) :
    manage_core_activity T pick wr m s =
      (⟨s.active.erase (pick s.active), insert (pick s.active) s.offline⟩,
        set_cpu_online_state_algo wr (pick s.active) false ++
          [KernelEvent.setGovernor "powersave"]) := by
  unfold manage_core_activity
  rw [if_pos h]

/-- A high activation signal refutes the metric part of the deactivation
guard. -/
theorem high_not_low (T : Thresholds) (m : Metrics) (n : ℕ)
    (h : T.LOAD_THRESHOLD ≤ m.cpu_load ∨ T.IRQ_THRESHOLD ≤ m.irq_count ∨
      T.IPC_THRESHOLD ≤ m.ipc) :
    ¬(m.cpu_load < T.LOAD_THRESHOLD ∧ m.irq_count < T.IRQ_THRESHOLD ∧
      m.ipc < T.IPC_THRESHOLD ∧ T.MIN_ACTIVE_CORES < n) := by
  rintro ⟨h1, h2, h3, _⟩
  rcases h with h | h | h
  · exact absurd h1 (not_lt.mpr h)
  · exact absurd h2 (not_lt.mpr h)
  · exact absurd h3 (not_lt.mpr h)

/-- Evaluation of the decision step when an activation signal is high and an
offline core exists. -/
theorem manage_activate_eq (T : Thresholds) (pick : Finset ℕ → ℕ) (wr : ℕ → WriteResult)
    (m : Metrics) (s : CoreState)
    (h : T.LOAD_THRESHOLD ≤ m.cpu_load ∨ T.IRQ_THRESHOLD ≤ m.irq_count ∨
      T.IPC_THRESHOLD ≤ m.ipc)
    (hne : s.offline.Nonempty) :
    manage_core_activity T pick wr m s =
      (⟨insert (pick s.offline) s.active, s.offline.erase (pick s.offline)⟩,
        set_cpu_online_state_algo wr (pick s.offline) true ++
          [KernelEvent.setGovernor "performance"]) := by
  unfold manage_core_activity
  rw [if_neg (high_not_low T m s.active.card h), if_pos h, if_pos hne]

/-- Evaluation of the decision step when neither branch fires. -/
theorem manage_none_eq (T : Thresholds) (pick : Finset ℕ → ℕ) (wr : ℕ → WriteResult)
    (m : Metrics) (s : CoreState)
    (hd : ¬(m.cpu_load < T.LOAD_THRESHOLD ∧ m.irq_count < T.IRQ_THRESHOLD ∧
      m.ipc < T.IPC_THRESHOLD ∧ T.MIN_ACTIVE_CORES < s.active.card))
    (ha : ¬(T.LOAD_THRESHOLD ≤ m.cpu_load ∨ T.IRQ_THRESHOLD ≤ m.irq_count ∨
      T.IPC_THRESHOLD ≤ m.ipc) ∨ s.offline = ∅) :
    manage_core_activity T pick wr m s = (s, []) := by
  unfold manage_core_activity
  rw [if_neg hd]
  rcases ha with ha | ha
  · rw [if_neg ha]
  · by_cases hh : T.LOAD_THRESHOLD ≤ m.cpu_load ∨ T.IRQ_THRESHOLD ≤ m.irq_count ∨
        T.IPC_THRESHOLD ≤ m.ipc
    · rw [if_pos hh, if_neg (by rw [ha]; exact Finset.not_nonempty_empty)]
    · rw [if_neg hh]

/-- Evaluation of the cpupowalgo decision step when the deactivation guard
holds: the last list element is popped. -/
theorem manage_pow_deactivate_eq (pick : Finset ℕ → ℕ) (wr : ℕ → WriteResult)
    (m : Metrics) (s : CoreStateP) (c : ℕ)
    (h : m.cpu_load < cpupowThresholds.LOAD_THRESHOLD ∧
      m.irq_count < cpupowThresholds.IRQ_THRESHOLD ∧
      m.ipc < cpupowThresholds.IPC_THRESHOLD ∧
      cpupowThresholds.MIN_ACTIVE_CORES < s.active.length)
    (hc : s.active.getLast? = some c) :
    manage_decision_pow pick wr m s =
      (⟨s.active.dropLast, insert c s.offline⟩,
        set_cpu_online_state_pow wr c false ++ [KernelEvent.setGovernor "powersave"]) := by
  unfold manage_decision_pow
  rw [if_pos h, hc]

/-- Evaluation of the cpupowalgo decision step when an activation signal is
high and an offline core exists. -/
theorem manage_pow_activate_eq (pick : Finset ℕ → ℕ) (wr : ℕ → WriteResult)
    (m : Metrics) (s : CoreStateP)
    (h : cpupowThresholds.LOAD_THRESHOLD ≤ m.cpu_load ∨
      cpupowThresholds.IRQ_THRESHOLD ≤ m.irq_count ∨
      cpupowThresholds.IPC_THRESHOLD ≤ m.ipc)
    (hne : s.offline.Nonempty) :
    manage_decision_pow pick wr m s =
      (⟨s.active ++ [pick s.offline], s.offline.erase (pick s.offline)⟩,
        set_cpu_online_state_pow wr (pick s.offline) true ++
          [KernelEvent.setGovernor "performance"]) := by
  unfold manage_decision_pow
  rw [if_neg (high_not_low cpupowThresholds m s.active.length h), if_pos h, if_pos hne]

/-- Evaluation of the cpupowalgo decision step when neither branch fires. -/
theorem manage_pow_none_eq (pick : Finset ℕ → ℕ) (wr : ℕ → WriteResult)
    (m : Metrics) (s : CoreStateP)
    (hd : ¬(m.cpu_load < cpupowThresholds.LOAD_THRESHOLD ∧
      m.irq_count < cpupowThresholds.IRQ_THRESHOLD ∧
      m.ipc < cpupowThresholds.IPC_THRESHOLD ∧
      cpupowThresholds.MIN_ACTIVE_CORES < s.active.length))
    (ha : ¬(cpupowThresholds.LOAD_THRESHOLD ≤ m.cpu_load ∨
      cpupowThresholds.IRQ_THRESHOLD ≤ m.irq_count ∨
      cpupowThresholds.IPC_THRESHOLD ≤ m.ipc) ∨ s.offline = ∅) :
    manage_decision_pow pick wr m s = (s, []) := by
  unfold manage_decision_pow
  rw [if_neg hd]
  rcases ha with ha | ha
  · rw [if_neg ha]
  · by_cases hh : cpupowThresholds.LOAD_THRESHOLD ≤ m.cpu_load ∨
        cpupowThresholds.IRQ_THRESHOLD ≤ m.irq_count ∨
        cpupowThresholds.IPC_THRESHOLD ≤ m.ipc
    · rw [if_pos hh, if_neg (by rw [ha]; exact Finset.not_nonempty_empty)]
    · rw [if_neg hh]

/-- C1: for every cycle, given (cpuLoad, irqCount, ipc) and the current
active and offline sets, the decision step manage_core_activity of both
source files follows the precedence: when all three metrics are below their
thresholds and more than MIN_ACTIVE_CORES cores are active, exactly one
core moves from active to offline, setOnline(core, false) is requested,
and the governor is set to powersave; otherwise, when any metric reaches
its threshold and offline is non-empty, exactly one core moves from offline
to active, setOnline(core, true) is requested, and the governor is set to
performance; otherwise no core moves. At most one transition happens per
cycle. -/
theorem c1_decision_step_precedence (T : Thresholds) (pick : Finset ℕ → ℕ)
    (wr : ℕ → WriteResult) (m : Metrics) (s : CoreState) (sp : CoreStateP)
    (hpick : GoodPick pick) :
    ((m.cpu_load < T.LOAD_THRESHOLD ∧ m.irq_count < T.IRQ_THRESHOLD ∧
        m.ipc < T.IPC_THRESHOLD ∧ T.MIN_ACTIVE_CORES < s.active.card) →
      ∃ c ∈ s.active,
        manage_core_activity T pick wr m s =
          (⟨s.active.erase c, insert c s.offline⟩,
            set_cpu_online_state_algo wr c false ++ [KernelEvent.setGovernor "powersave"])) ∧
    ((T.LOAD_THRESHOLD ≤ m.cpu_load ∨ T.IRQ_THRESHOLD ≤ m.irq_count ∨
        T.IPC_THRESHOLD ≤ m.ipc) → s.offline.Nonempty →
      ∃ c ∈ s.offline,
        manage_core_activity T pick wr m s =
          (⟨insert c s.active, s.offline.erase c⟩,
            set_cpu_online_state_algo wr c true ++ [KernelEvent.setGovernor "performance"])) ∧
    (¬(m.cpu_load < T.LOAD_THRESHOLD ∧ m.irq_count < T.IRQ_THRESHOLD ∧
        m.ipc < T.IPC_THRESHOLD ∧ T.MIN_ACTIVE_CORES < s.active.card) →
      (¬(T.LOAD_THRESHOLD ≤ m.cpu_load ∨ T.IRQ_THRESHOLD ≤ m.irq_count ∨
          T.IPC_THRESHOLD ≤ m.ipc) ∨ s.offline = ∅) →
      manage_core_activity T pick wr m s = (s, [])) ∧
    ((m.cpu_load < cpupowThresholds.LOAD_THRESHOLD ∧
        m.irq_count < cpupowThresholds.IRQ_THRESHOLD ∧
        m.ipc < cpupowThresholds.IPC_THRESHOLD ∧
        cpupowThresholds.MIN_ACTIVE_CORES < sp.active.length) →
      ∃ c, sp.active.getLast? = some c ∧
        manage_decision_pow pick wr m sp =
          (⟨sp.active.dropLast, insert c sp.offline⟩,
            set_cpu_online_state_pow wr c false ++ [KernelEvent.setGovernor "powersave"])) ∧
    ((cpupowThresholds.LOAD_THRESHOLD ≤ m.cpu_load ∨
        cpupowThresholds.IRQ_THRESHOLD ≤ m.irq_count ∨
        cpupowThresholds.IPC_THRESHOLD ≤ m.ipc) → sp.offline.Nonempty →
      ∃ c ∈ sp.offline,
        manage_decision_pow pick wr m sp =
          (⟨sp.active ++ [c], sp.offline.erase c⟩,
            set_cpu_online_state_pow wr c true ++ [KernelEvent.setGovernor "performance"])) ∧
    (¬(m.cpu_load < cpupowThresholds.LOAD_THRESHOLD ∧
        m.irq_count < cpupowThresholds.IRQ_THRESHOLD ∧
        m.ipc < cpupowThresholds.IPC_THRESHOLD ∧
        cpupowThresholds.MIN_ACTIVE_CORES < sp.active.length) →
      (¬(cpupowThresholds.LOAD_THRESHOLD ≤ m.cpu_load ∨
          cpupowThresholds.IRQ_THRESHOLD ≤ m.irq_count ∨
          cpupowThresholds.IPC_THRESHOLD ≤ m.ipc) ∨ sp.offline = ∅) →
      manage_decision_pow pick wr m sp = (sp, [])) := by
  refine ⟨?_, ?_, ?_, ?_, ?_, ?_⟩
  · intro h
    have hne : s.active.Nonempty :=
      Finset.card_pos.mp (Nat.lt_of_le_of_lt (Nat.zero_le _) h.2.2.2)
    exact ⟨pick s.active, hpick _ hne, manage_deactivate_eq T pick wr m s h⟩
  · intro h hne
    exact ⟨pick s.offline, hpick _ hne, manage_activate_eq T pick wr m s h hne⟩
  · exact manage_none_eq T pick wr m s
  · intro h
    have hpos : 0 < sp.active.length := Nat.lt_of_le_of_lt (Nat.zero_le _) h.2.2.2
    have hne : sp.active ≠ [] := by
      intro hnil
      rw [hnil] at hpos
      exact absurd hpos (by simp)
    obtain ⟨c, hc⟩ := Option.ne_none_iff_exists.mp
      (mt List.getLast?_eq_none_iff.mp hne)
    exact ⟨c, hc.symm, manage_pow_deactivate_eq pick wr m sp c h hc.symm⟩
  · intro h hne
    exact ⟨pick sp.offline, hpick _ hne, manage_pow_activate_eq pick wr m sp h hne⟩
  · exact manage_pow_none_eq pick wr m sp

/-- One decision step preserves disjointness of active and offline and
their union. -/
theorem manage_preserves_partition (T : Thresholds) (pick : Finset ℕ → ℕ)
    (hpick : GoodPick pick) (wr : ℕ → WriteResult) (m : Metrics) (s : CoreState)
    (u : Finset ℕ) (hd : s.active ∩ s.offline = ∅) (hu : s.active ∪ s.offline = u) :
    (manage_core_activity T pick wr m s).1.active ∩
      (manage_core_activity T pick wr m s).1.offline = ∅ ∧
    (manage_core_activity T pick wr m s).1.active ∪
      (manage_core_activity T pick wr m s).1.offline = u := by
  have hd2 : ∀ x, x ∈ s.active → x ∉ s.offline := by
    intro x hx hy
    have : x ∈ s.active ∩ s.offline := Finset.mem_inter.mpr ⟨hx, hy⟩
    rw [hd] at this
    exact absurd this (Finset.not_mem_empty x)
  unfold manage_core_activity
  split_ifs with h1 h2 h3
  · have hc : pick s.active ∈ s.active :=
      hpick _ (Finset.card_pos.mp (Nat.lt_of_le_of_lt (Nat.zero_le _) h1.2.2.2))
    constructor
    · apply Finset.eq_empty_iff_forall_not_mem.mpr
      intro x hx
      rw [Finset.mem_inter, Finset.mem_erase, Finset.mem_insert] at hx
      rcases hx with ⟨⟨hne, hxa⟩, hxc | hxo⟩
      · exact hne hxc
      · exact hd2 x hxa hxo
    · rw [← hu]
      ext x
      simp only [Finset.mem_union, Finset.mem_erase, Finset.mem_insert]
      constructor
      · rintro (⟨_, hx⟩ | hx | hx)
        · exact Or.inl hx
        · exact Or.inl (hx ▸ hc)
        · exact Or.inr hx
      · rintro (hx | hx)
        · by_cases hxc : x = pick s.active
          · exact Or.inr (Or.inl hxc)
          · exact Or.inl ⟨hxc, hx⟩
        · exact Or.inr (Or.inr hx)
  · have hc : pick s.offline ∈ s.offline := hpick _ h3
    constructor
    · apply Finset.eq_empty_iff_forall_not_mem.mpr
      intro x hx
      rw [Finset.mem_inter, Finset.mem_insert, Finset.mem_erase] at hx
      rcases hx with ⟨hxc | hxa, hne, hxo⟩
      · exact hne hxc
      · exact hd2 x hxa hxo
    · rw [← hu]
      ext x
      simp only [Finset.mem_union, Finset.mem_erase, Finset.mem_insert]
      constructor
      · rintro ((hx | hx) | ⟨_, hx⟩)
        · exact Or.inr (hx ▸ hc)
        · exact Or.inl hx
        · exact Or.inr hx
      · rintro (hx | hx)
        · exact Or.inl (Or.inr hx)
        · by_cases hxc : x = pick s.offline
          · exact Or.inl (Or.inl hxc)
          · exact Or.inr ⟨hxc, hx⟩
  · exact ⟨hd, hu⟩
  · exact ⟨hd, hu⟩

/-- Partition invariant of every cpualgo.py reachable state. -/
theorem reachable_partition (pick : Finset ℕ → ℕ) (maxCores : ℕ)
    (hpick : GoodPick pick) (s : CoreState) (hs : ReachableAlgo pick maxCores s) :
    s.active ∩ s.offline = ∅ ∧
    s.active ∪ s.offline = (Finset.range maxCores).erase 0 := by
  induction hs with
  | init => exact ⟨by simp [initState], by simp [initState]⟩
  | step wr m t ht ih =>
    exact manage_preserves_partition cpualgoThresholds pick hpick wr m t
      ((Finset.range maxCores).erase 0) ih.1 ih.2

/-- One decision step never drops the active count below the minimum. -/
theorem manage_preserves_min (T : Thresholds) (pick : Finset ℕ → ℕ)
    (hpick : GoodPick pick) (wr : ℕ → WriteResult) (m : Metrics) (s : CoreState)
    (h : T.MIN_ACTIVE_CORES ≤ s.active.card) :
    T.MIN_ACTIVE_CORES ≤ (manage_core_activity T pick wr m s).1.active.card := by
  unfold manage_core_activity
  split_ifs with h1 h2 h3
  · have hc : pick s.active ∈ s.active :=
      hpick _ (Finset.card_pos.mp (Nat.lt_of_le_of_lt (Nat.zero_le _) h1.2.2.2))
    simp only [Finset.card_erase_of_mem hc]
    exact Nat.le_sub_one_of_lt h1.2.2.2
  · exact le_trans h (Finset.card_le_card (Finset.subset_insert _ _))
  · exact h
  · exact h

/-- Minimum-active invariant of every cpualgo.py reachable state, for a
machine with at least two logical cores. -/
theorem reachable_min_active (pick : Finset ℕ → ℕ) (maxCores : ℕ)
    (hpick : GoodPick pick) (hmax : 2 ≤ maxCores) (s : CoreState)
    (hs : ReachableAlgo pick maxCores s) :
    cpualgoThresholds.MIN_ACTIVE_CORES ≤ s.active.card := by
  induction hs with
  | init =>
    have h0 : (0 : ℕ) ∈ Finset.range maxCores :=
      Finset.mem_range.mpr (Nat.lt_of_lt_of_le (by norm_num) hmax)
    simp only [initState, Finset.card_erase_of_mem h0, Finset.card_range]
    have : (1 : ℕ) ≤ maxCores - 1 := by omega
    exact le_trans (by norm_num [cpualgoThresholds]) this
  | step wr m t ht ih =>
    exact manage_preserves_min cpualgoThresholds pick hpick wr m t ih

/-- C2: for every state reachable from the initial registry (active = all
core ids except 0, offline = empty) by any sequence of decision-step
executions, active and offline are disjoint and their union is the set of
all core ids except core 0. -/
theorem c2_partition_invariant (pick : Finset ℕ → ℕ) (maxCores : ℕ) (s : CoreState)
    (hpick : GoodPick pick) (hs : ReachableAlgo pick maxCores s) :
    s.active ∩ s.offline = ∅ ∧
    s.active ∪ s.offline = (Finset.range maxCores).erase 0 :=
  reachable_partition pick maxCores hpick s hs

/-- C2 witness: the partition invariant instantiated on a 4-core machine at
the state reached after one low-load deactivation step. -/
theorem c2_partition_invariant_witness :
    ((manage_core_activity cpualgoThresholds pickMin (fun _ => WriteResult.ok)
        ⟨5, 1000, 0.3⟩ (initState 4)).1.active ∩
      (manage_core_activity cpualgoThresholds pickMin (fun _ => WriteResult.ok)
        ⟨5, 1000, 0.3⟩ (initState 4)).1.offline = ∅) ∧
    ((manage_core_activity cpualgoThresholds pickMin (fun _ => WriteResult.ok)
        ⟨5, 1000, 0.3⟩ (initState 4)).1.active ∪
      (manage_core_activity cpualgoThresholds pickMin (fun _ => WriteResult.ok)
        ⟨5, 1000, 0.3⟩ (initState 4)).1.offline = (Finset.range 4).erase 0) :=
  c2_partition_invariant pickMin 4 _ goodPick_pickMin
    (ReachableAlgo.step (fun _ => WriteResult.ok) ⟨5, 1000, 0.3⟩ (initState 4)
      ReachableAlgo.init)

/-- C3: every reachable state of cpualgo.py on a machine with at least two
logical cores keeps at least MIN_ACTIVE_CORES active cores; and whenever
the three metric conditions for deactivation hold but the active count is
exactly MIN_ACTIVE_CORES, the decision step performs no transition and
leaves both sets unchanged. -/
theorem c3_min_active_cores (pick : Finset ℕ → ℕ) (maxCores : ℕ) (s : CoreState)
    (hpick : GoodPick pick) (hmax : 2 ≤ maxCores)
    (hs : ReachableAlgo pick maxCores s) :
    cpualgoThresholds.MIN_ACTIVE_CORES ≤ s.active.card ∧
    (∀ (wr : ℕ → WriteResult) (m : Metrics),
      m.cpu_load < cpualgoThresholds.LOAD_THRESHOLD →
      m.irq_count < cpualgoThresholds.IRQ_THRESHOLD →
      m.ipc < cpualgoThresholds.IPC_THRESHOLD →
      s.active.card = cpualgoThresholds.MIN_ACTIVE_CORES →
      manage_core_activity cpualgoThresholds pick wr m s = (s, [])) := by
  refine ⟨reachable_min_active pick maxCores hpick hmax s hs, ?_⟩
  intro wr m h1 h2 h3 hcard
  apply manage_none_eq
  · rintro ⟨_, _, _, hlt⟩
    rw [hcard] at hlt
    exact absurd hlt (lt_irrefl _)
  · left
    rintro (h | h | h)
    · exact absurd h1 (not_lt.mpr h)
    · exact absurd h2 (not_lt.mpr h)
    · exact absurd h3 (not_lt.mpr h)

/-- C3 witness: on a 2-core machine the initial state sits exactly at the
minimum, and a low-load, low-irq, low-ipc cycle leaves it unchanged. -/
theorem c3_min_active_cores_witness :
    cpualgoThresholds.MIN_ACTIVE_CORES ≤ (initState 2).active.card ∧
    manage_core_activity cpualgoThresholds pickMin (fun _ => WriteResult.ok)
      ⟨5, 1000, 0.3⟩ (initState 2) = (initState 2, []) := by
  have h := c3_min_active_cores pickMin 2 (initState 2) goodPick_pickMin
    (by norm_num) ReachableAlgo.init
  refine ⟨h.1, h.2 (fun _ => WriteResult.ok) ⟨5, 1000, 0.3⟩ ?_ ?_ ?_ ?_⟩
  · norm_num [cpualgoThresholds]
  · norm_num [cpualgoThresholds]
  · norm_num [cpualgoThresholds]
  · decide

/-- Governor choices actually emitted by the decision step are exactly the
ones of the branch it took. -/
theorem manage_gov_eq (T : Thresholds) (pick : Finset ℕ → ℕ) (wr : ℕ → WriteResult)
    (m : Metrics) (s : CoreState) :
    (manage_core_activity T pick wr m s).2.filterMap govOf =
      govList (branchTaken T m s) := by
  unfold manage_core_activity branchTaken
  split_ifs with h1 h2 h3
  · by_cases hc : pick s.active = 0 <;>
      simp [set_cpu_online_state_algo, hc, govOf, govList]
  · by_cases hc : pick s.offline = 0 <;>
      simp [set_cpu_online_state_algo, hc, govOf, govList]
  · simp [govList]
  · simp [govList]

/-- The branch taken depends on the registry only through the two
cardinalities. -/
theorem branchTaken_card_eq (T : Thresholds) (m : Metrics) (s1 s2 : CoreState)
    (hA : s1.active.card = s2.active.card) (hO : s1.offline.card = s2.offline.card) :
    branchTaken T m s1 = branchTaken T m s2 := by
  have hne : s1.offline.Nonempty ↔ s2.offline.Nonempty := by
    rw [← Finset.card_pos, ← Finset.card_pos, hO]
  simp only [branchTaken, hA, hne]

/-- C8: the decision step's branch choice is deterministic: two runs with
the same metric values, the same thresholds, and registries of equal active
and offline cardinalities take the same branch and emit the same governor
choices, whatever the popped elements and write outcomes. -/
theorem c8_branch_determinism (T : Thresholds) (m : Metrics) (s1 s2 : CoreState)
    (pick1 pick2 : Finset ℕ → ℕ) (wr1 wr2 : ℕ → WriteResult)
    (hA : s1.active.card = s2.active.card) (hO : s1.offline.card = s2.offline.card) :
    branchTaken T m s1 = branchTaken T m s2 ∧
    (manage_core_activity T pick1 wr1 m s1).2.filterMap govOf =
      (manage_core_activity T pick2 wr2 m s2).2.filterMap govOf := by
  have hb := branchTaken_card_eq T m s1 s2 hA hO
  exact ⟨hb, by rw [manage_gov_eq, manage_gov_eq, hb]⟩

/-- C8 witness: two registries with equal cardinalities but different
members, different pop choices and different write outcomes take the same
branch and emit the same governor choices. -/
theorem c8_branch_determinism_witness :
    ((⟨{1, 2}, ∅⟩ : CoreState).active.card = (⟨{5, 9}, ∅⟩ : CoreState).active.card) ∧
    ((⟨{1, 2}, ∅⟩ : CoreState).offline.card = (⟨{5, 9}, ∅⟩ : CoreState).offline.card) ∧
    branchTaken cpualgoThresholds ⟨50, 0, 0⟩ ⟨{1, 2}, ∅⟩ =
      branchTaken cpualgoThresholds ⟨50, 0, 0⟩ ⟨{5, 9}, ∅⟩ ∧
    (manage_core_activity cpualgoThresholds pickMin (fun _ => WriteResult.ok)
        ⟨50, 0, 0⟩ ⟨{1, 2}, ∅⟩).2.filterMap govOf =
      (manage_core_activity cpualgoThresholds pickMax (fun _ => WriteResult.writeError)
        ⟨50, 0, 0⟩ ⟨{5, 9}, ∅⟩).2.filterMap govOf := by
  have h := c8_branch_determinism cpualgoThresholds ⟨50, 0, 0⟩ ⟨{1, 2}, ∅⟩ ⟨{5, 9}, ∅⟩
    pickMin pickMax (fun _ => WriteResult.ok) (fun _ => WriteResult.writeError)
    (by decide) (by decide)
  exact ⟨by decide, by decide, h.1, h.2⟩

/-- C10: in cpualgo.py, get_ipc always returns the constant 0.75; since
IPC_THRESHOLD is 0.7, the condition ipc < IPC_THRESHOLD is false for every
value get_ipc produces, so the deactivation branch is never taken in the
main loop of cpualgo.py and no core is ever moved from active to offline:
every state the main loop reaches is the initial state. -/
theorem c10_deactivation_never_taken :
    get_ipc_algo = 0.75 ∧
    ¬ get_ipc_algo < cpualgoThresholds.IPC_THRESHOLD ∧
    (∀ (m : Metrics) (s : CoreState), m.ipc = get_ipc_algo →
      branchTaken cpualgoThresholds m s ≠ Branch.deactivate) ∧
    (∀ (pick : Finset ℕ → ℕ) (maxCores : ℕ) (s : CoreState),
      ReachableAlgoMain pick maxCores s → s = initState maxCores) := by
  have hges : ¬ get_ipc_algo < cpualgoThresholds.IPC_THRESHOLD := by
    norm_num [get_ipc_algo, cpualgoThresholds]
  refine ⟨rfl, hges, ?_, ?_⟩
  · intro m s hm
    unfold branchTaken
    rw [if_neg (by rintro ⟨_, _, h3, _⟩; rw [hm] at h3; exact hges h3)]
    split_ifs <;> simp
  · intro pick maxCores s h
    induction h with
    | init => rfl
    | step wr load irq t ht ih =>
      rw [ih]
      rw [manage_none_eq cpualgoThresholds pick wr ⟨load, irq, get_ipc_algo⟩
        (initState maxCores)
        (by rintro ⟨_, _, h3, _⟩; exact hges h3)
        (Or.inr rfl)]

/-- C10 witness: at the metrics the cpualgo.py main loop actually produces
(ipc = 0.75) on a 4-core machine, one step from the initial state changes
nothing. -/
theorem c10_deactivation_never_taken_witness :
    Metrics.ipc ⟨5, 1000, get_ipc_algo⟩ = get_ipc_algo ∧
    branchTaken cpualgoThresholds ⟨5, 1000, get_ipc_algo⟩ ⟨{1, 2, 3}, ∅⟩ ≠
      Branch.deactivate ∧
    (manage_core_activity cpualgoThresholds pickMin (fun _ => WriteResult.ok)
      ⟨5, 1000, get_ipc_algo⟩ (initState 4)).1 = initState 4 := by
  refine ⟨rfl, c10_deactivation_never_taken.2.2.1 _ _ rfl, ?_⟩
  exact c10_deactivation_never_taken.2.2.2 pickMin 4 _
    (ReachableAlgoMain.step (fun _ => WriteResult.ok) 5 1000 (initState 4)
      ReachableAlgoMain.init)

/-- C1 witness: with load 5, irq 1000, ipc 0.3 and active = {1, 2, 3},
offline = empty, the deactivation guard holds and the step moves exactly
one active core to offline with a powersave governor request. -/
theorem c1_decision_step_precedence_witness :
    ((5 : ℚ) < cpualgoThresholds.LOAD_THRESHOLD ∧
      (1000 : ℕ) < cpualgoThresholds.IRQ_THRESHOLD ∧
      (0.3 : ℚ) < cpualgoThresholds.IPC_THRESHOLD ∧
      cpualgoThresholds.MIN_ACTIVE_CORES < ({1, 2, 3} : Finset ℕ).card) ∧
    (∃ c ∈ ({1, 2, 3} : Finset ℕ),
      manage_core_activity cpualgoThresholds pickMax (fun _ => WriteResult.ok)
          ⟨5, 1000, 0.3⟩ ⟨{1, 2, 3}, ∅⟩ =
        (⟨({1, 2, 3} : Finset ℕ).erase c, insert c (∅ : Finset ℕ)⟩,
          set_cpu_online_state_algo (fun _ => WriteResult.ok) c false ++
            [KernelEvent.setGovernor "powersave"])) := by
  have hcond : (5 : ℚ) < cpualgoThresholds.LOAD_THRESHOLD ∧
      (1000 : ℕ) < cpualgoThresholds.IRQ_THRESHOLD ∧
      (0.3 : ℚ) < cpualgoThresholds.IPC_THRESHOLD ∧
      cpualgoThresholds.MIN_ACTIVE_CORES < ({1, 2, 3} : Finset ℕ).card :=
    ⟨by norm_num [cpualgoThresholds], by norm_num [cpualgoThresholds],
      by norm_num [cpualgoThresholds], by decide⟩
  exact ⟨hcond,
    (c1_decision_step_precedence cpualgoThresholds pickMax (fun _ => WriteResult.ok)
      ⟨5, 1000, 0.3⟩ ⟨{1, 2, 3}, ∅⟩ ⟨[1], ∅⟩ goodPick_pickMax).1 hcond⟩

/-- C4: at the failing input (load 5, irq 1000, ipc 0.3, active = {1, 2, 3},
offline = empty) with the setOnline kernel write failing, the source still
moves core 3 from active to offline: the registry mutation happens before
the write and set_cpu_online_state swallows the failure, so the registry
does not remain unchanged. -/
theorem c4_registry_changes_on_failed_write :
    (manage_core_activity cpualgoThresholds pickMax (fun _ => WriteResult.writeError)
        ⟨5, 1000, 0.3⟩ ⟨{1, 2, 3}, ∅⟩).1 ≠ (⟨{1, 2, 3}, ∅⟩ : CoreState) ∧
    manage_core_activity cpualgoThresholds pickMax (fun _ => WriteResult.writeError)
        ⟨5, 1000, 0.3⟩ ⟨{1, 2, 3}, ∅⟩ =
      (⟨{1, 2}, {3}⟩,
        [KernelEvent.setOnline 3 false WriteResult.writeError,
          KernelEvent.setGovernor "powersave"]) := by
  have heq : manage_core_activity cpualgoThresholds pickMax
      (fun _ => WriteResult.writeError) ⟨5, 1000, 0.3⟩ ⟨{1, 2, 3}, ∅⟩ =
      (⟨{1, 2}, {3}⟩,
        [KernelEvent.setOnline 3 false WriteResult.writeError,
          KernelEvent.setGovernor "powersave"]) := by
    rw [manage_deactivate_eq cpualgoThresholds pickMax (fun _ => WriteResult.writeError)
      ⟨5, 1000, 0.3⟩ ⟨{1, 2, 3}, ∅⟩
      ⟨by norm_num [cpualgoThresholds], by norm_num [cpualgoThresholds],
        by norm_num [cpualgoThresholds], by decide⟩]
    decide
  exact ⟨by rw [heq]; decide, heq⟩

/-- C5 counterexample: in cpupowalgo.py, when the kernel exposes the online
file of core 0 with content 1 on a 2-cpu machine, get_active_cores puts
core 0 into the active set the loop manages, and set_cpu_online_state
writes the online state of whatever core it is handed, core 0 included. -/
theorem c5_core0_counterexample :
    0 ∈ get_active_cores (fun c => if c ≤ 1 then some "1" else none) 2 ∧
    set_cpu_online_state_pow (fun _ => WriteResult.ok) 0 false =
      [KernelEvent.setOnline 0 false WriteResult.ok] := by
  constructor
  · decide
  · rfl

/-- C5 amended: in cpualgo.py core 0 is reserved as claimed --
set_cpu_online_state writes nothing for core 0 and core 0 is never a member
of active or offline in any reachable state; in cpupowalgo.py, however,
set_cpu_online_state has no core-0 guard, and get_active_cores includes
core 0 in the managed active set exactly when the kernel exposes its online
file with content 1. -/
theorem c5_core0_reserved_amended :
    (∀ (wr : ℕ → WriteResult) (b : Bool), set_cpu_online_state_algo wr 0 b = []) ∧
    (∀ (pick : Finset ℕ → ℕ) (maxCores : ℕ) (s : CoreState), GoodPick pick →
      ReachableAlgo pick maxCores s → 0 ∉ s.active ∧ 0 ∉ s.offline) ∧
    (∀ (wr : ℕ → WriteResult) (c : ℕ) (b : Bool),
      set_cpu_online_state_pow wr c b = [KernelEvent.setOnline c b (wr c)]) ∧
    (∀ (sysOnline : ℕ → Option String) (n : ℕ),
      0 ∈ get_active_cores sysOnline n ↔ 0 < n ∧ sysOnline 0 = some "1") := by
  refine ⟨fun wr b => rfl, ?_, fun wr c b => rfl, ?_⟩
  · intro pick maxCores s hpick hs
    have h := reachable_partition pick maxCores hpick s hs
    have h0 : 0 ∉ s.active ∪ s.offline := by
      rw [h.2]
      simp
    exact ⟨fun hx => h0 (Finset.mem_union_left _ hx),
      fun hx => h0 (Finset.mem_union_right _ hx)⟩
  · intro sysOnline n
    unfold get_active_cores
    rw [List.mem_filter, List.mem_range]
    constructor
    · rintro ⟨h1, h2⟩
      refine ⟨h1, ?_⟩
      simpa using h2
    · rintro ⟨h1, h2⟩
      exact ⟨h1, by simp [h2]⟩

/-- C5 witness: the amended statement instantiated: no write for core 0 in
cpualgo.py, core 0 outside both sets of the initial 4-core state, the
unguarded cpupowalgo.py write for core 0, and the membership criterion for
core 0 in get_active_cores. -/
theorem c5_core0_reserved_amended_witness :
    set_cpu_online_state_algo (fun _ => WriteResult.writeError) 0 true = [] ∧
    (0 ∉ (initState 4).active ∧ 0 ∉ (initState 4).offline) ∧
    set_cpu_online_state_pow (fun _ => WriteResult.writeError) 0 true =
      [KernelEvent.setOnline 0 true WriteResult.writeError] ∧
    (0 ∈ get_active_cores (fun _ => some "1") 3 ↔
      0 < 3 ∧ (fun _ => some ("1" : String)) 0 = some "1") :=
  ⟨c5_core0_reserved_amended.1 _ _,
    c5_core0_reserved_amended.2.1 pickMin 4 _ goodPick_pickMin ReachableAlgo.init,
    c5_core0_reserved_amended.2.2.1 _ _ _,
    c5_core0_reserved_amended.2.2.2 _ _⟩

/-- Membership in the verified list means membership in the active list
together with a fresh read of "1". -/
theorem validActiveCores_mem (readOnline : ℕ → Except Unit String) :
    ∀ (active v : List ℕ), validActiveCores readOnline active = Except.ok v →
      ∀ c ∈ v, c ∈ active ∧ readOnline c = Except.ok "1" := by
  intro active
  induction active with
  | nil =>
    intro v hv c hc
    simp only [validActiveCores] at hv
    injection hv with hv
    subst hv
    exact absurd hc (List.not_mem_nil c)
  | cons a as ih =>
    intro v hv c hc
    simp only [validActiveCores] at hv
    cases hra : readOnline a with
    | error e => rw [hra] at hv; cases hv
    | ok st =>
      rw [hra] at hv
      cases hrest : validActiveCores readOnline as with
      | error e => rw [hrest] at hv; cases hv
      | ok rest =>
        rw [hrest] at hv
        injection hv with hv
        by_cases hst : st = "1"
        · rw [if_pos hst] at hv
          subst hv
          rcases List.mem_cons.mp hc with rfl | hc2
          · exact ⟨List.mem_cons_self _ _, by rw [hra, hst]⟩
          · obtain ⟨h1, h2⟩ := ih rest hrest c hc2
            exact ⟨List.mem_cons_of_mem _ h1, h2⟩
        · rw [if_neg hst] at hv
          subst hv
          obtain ⟨h1, h2⟩ := ih rest hrest c hc
          exact ⟨List.mem_cons_of_mem _ h1, h2⟩

/-- When every fresh read succeeds, computing the verified list succeeds. -/
theorem validActiveCores_ok (readOnline : ℕ → Except Unit String)
    (h : ∀ c, exceptOk (readOnline c) = true) :
    ∀ active : List ℕ, ∃ v, validActiveCores readOnline active = Except.ok v := by
  intro active
  induction active with
  | nil => exact ⟨[], rfl⟩
  | cons a as ih =>
    obtain ⟨v, hv⟩ := ih
    cases hra : readOnline a with
    | error e =>
      have := h a
      rw [hra] at this
      cases this
    | ok st =>
      refine ⟨if st = "1" then a :: v else v, ?_⟩
      simp only [validActiveCores]
      rw [hra, hv]

/-- When every fresh read succeeds, handling one process succeeds. -/
theorem rebalanceOne_ok (active : List ℕ) (readOnline : ℕ → Except Unit String)
    (h : ∀ c, exceptOk (readOnline c) = true) (p : Proc) :
    ∃ r, rebalanceOne active readOnline p = Except.ok r := by
  unfold rebalanceOne
  by_cases h1 : p.vanished = true
  · rw [if_pos h1]
    exact ⟨_, rfl⟩
  · rw [if_neg h1]
    by_cases h2 : p.cpu_num ∈ active
    · rw [if_pos h2]
      exact ⟨_, rfl⟩
    · rw [if_neg h2]
      obtain ⟨v, hv⟩ := validActiveCores_ok readOnline h active
      rw [hv]
      cases v with
      | nil => exact ⟨_, rfl⟩
      | cons c cs =>
        by_cases hd : p.denied = true
        · refine ⟨RebalanceResult.skipped, ?_⟩
          show (if p.denied = true then Except.ok RebalanceResult.skipped
            else Except.ok (RebalanceResult.reassigned p.pid c)) =
            Except.ok RebalanceResult.skipped
          rw [if_pos hd]
        · refine ⟨RebalanceResult.reassigned p.pid c, ?_⟩
          show (if p.denied = true then Except.ok RebalanceResult.skipped
            else Except.ok (RebalanceResult.reassigned p.pid c)) =
            Except.ok (RebalanceResult.reassigned p.pid c)
          rw [if_neg hd]

/-- When every fresh read succeeds, the whole rebalancing loop succeeds. -/
theorem rebalance_ok (active : List ℕ) (readOnline : ℕ → Except Unit String)
    (h : ∀ c, exceptOk (readOnline c) = true) :
    ∀ procs : List Proc, ∃ rs, rebalance active readOnline procs = Except.ok rs := by
  intro procs
  induction procs with
  | nil => exact ⟨[], rfl⟩
  | cons p ps ih =>
    obtain ⟨r, hr⟩ := rebalanceOne_ok active readOnline h p
    obtain ⟨rs, hrs⟩ := ih
    refine ⟨r :: rs, ?_⟩
    simp only [rebalance]
    rw [hr, hrs]

/-- Mapping over an Except preserves being ok. -/
theorem exceptOk_map {ε α β : Type} (f : α → β) (x : Except ε α) :
    exceptOk (Except.map f x) = exceptOk x := by
  cases x <;> rfl

/-- The pow cycle is ok exactly when its rebalancing loop is ok. -/
theorem cycle_pow_isOk_eq (pick : Finset ℕ → ℕ) (env : EnvPow) (s : CoreStateP) :
    exceptOk (cycle_pow pick env s) =
      exceptOk (rebalance (manage_decision_pow pick env.wr
        ⟨env.cpu_load, get_irq_count env.irqRead, get_ipc_pow env.perf⟩ s).1.active
        env.readOnline env.procs) :=
  exceptOk_map _ _

/-- The cpualgo.py cycle always completes. -/
theorem cycle_algo_ok (pick : Finset ℕ → ℕ) (env : EnvAlgo) (s : CoreState) :
    exceptOk (cycle_algo pick env s) = true := rfl

/-- The cpupowalgo.py cycle completes whenever every fresh online
verification read succeeds. -/
theorem cycle_pow_ok_of_reads (pick : Finset ℕ → ℕ) (env : EnvPow) (s : CoreStateP)
    (h : ∀ c, exceptOk (env.readOnline c) = true) :
    exceptOk (cycle_pow pick env s) = true := by
  rw [cycle_pow_isOk_eq]
  obtain ⟨rs, hrs⟩ := rebalance_ok _ env.readOnline h env.procs
  rw [hrs]
  rfl

/-- C6: for a live process whose CPU affinity pins it to cores that are all
in the offline set (and which therefore last ran outside the active list),
the rebalancer reassigns it to a core of the active list that a fresh
kernel read verifies to be online; a vanished process is skipped, a
permission-denied one is never reassigned, and when no verified-online
active core exists no reassignment happens and a warning is reported. -/
theorem c6_rebalancer_reassignment (active : List ℕ) (offline : Finset ℕ)
    (readOnline : ℕ → Except Unit String) (p : Proc)
    (hdisj : ∀ c ∈ offline, c ∉ active)
    (haff : ∀ c ∈ p.affinity, c ∈ offline)
    (hrun : p.cpu_num ∈ p.affinity) :
    (p.vanished = false → p.denied = false →
      ∀ v, validActiveCores readOnline active = Except.ok v → v ≠ [] →
      ∃ c, c ∈ active ∧ readOnline c = Except.ok "1" ∧
        rebalanceOne active readOnline p =
          Except.ok (RebalanceResult.reassigned p.pid c)) ∧
    (p.vanished = false → validActiveCores readOnline active = Except.ok [] →
      rebalanceOne active readOnline p = Except.ok RebalanceResult.warned) ∧
    (p.vanished = true →
      rebalanceOne active readOnline p = Except.ok RebalanceResult.skipped) ∧
    (p.vanished = false → p.denied = true →
      ∀ r, rebalanceOne active readOnline p = Except.ok r →
        r = RebalanceResult.skipped ∨ r = RebalanceResult.warned) := by
  have hnot : p.cpu_num ∉ active := hdisj _ (haff _ hrun)
  refine ⟨?_, ?_, ?_, ?_⟩
  · intro hv hd v hval hvne
    cases v with
    | nil => exact absurd rfl hvne
    | cons c cs =>
      obtain ⟨hca, hcr⟩ := validActiveCores_mem readOnline active (c :: cs) hval c
        (List.mem_cons_self _ _)
      refine ⟨c, hca, hcr, ?_⟩
      unfold rebalanceOne
      rw [if_neg (by simp [hv]), if_neg hnot, hval]
      show (if p.denied = true then Except.ok RebalanceResult.skipped
        else Except.ok (RebalanceResult.reassigned p.pid c)) =
        Except.ok (RebalanceResult.reassigned p.pid c)
      rw [if_neg (by simp [hd])]
  · intro hv hval
    unfold rebalanceOne
    rw [if_neg (by simp [hv]), if_neg hnot, hval]
  · intro hv
    unfold rebalanceOne
    rw [if_pos hv]
  · intro hv hd r hr
    unfold rebalanceOne at hr
    rw [if_neg (by simp [hv]), if_neg hnot] at hr
    cases hval : validActiveCores readOnline active with
    | error e => rw [hval] at hr; cases hr
    | ok v =>
      rw [hval] at hr
      cases v with
      | nil =>
        injection hr with hr
        exact Or.inr hr.symm
      | cons c cs =>
        have hr2 : (if p.denied = true then Except.ok RebalanceResult.skipped
            else Except.ok (RebalanceResult.reassigned p.pid c)) =
            (Except.ok r : Except Unit RebalanceResult) := hr
        rw [if_pos hd] at hr2
        injection hr2 with hr2
        exact Or.inl hr2.symm

/-- C6 witness: process 7 is pinned to core 5, which is offline; with
active = [1, 2] and a kernel in which only core 1 verifies online, the
rebalancer reassigns process 7 to core 1. -/
theorem c6_rebalancer_reassignment_witness :
    (∀ c ∈ ({5} : Finset ℕ), c ∉ [1, 2]) ∧
    (∀ c ∈ [5], c ∈ ({5} : Finset ℕ)) ∧
    5 ∈ [5] ∧
    validActiveCores (fun c => Except.ok (if c = 1 then "1" else "0")) [1, 2] =
      Except.ok [1] ∧
    (∃ c, c ∈ [1, 2] ∧
      (fun c => Except.ok (if c = 1 then "1" else "0")) c =
        (Except.ok "1" : Except Unit String) ∧
      rebalanceOne [1, 2] (fun c => Except.ok (if c = 1 then "1" else "0"))
          ⟨7, 5, [5], false, false⟩ =
        Except.ok (RebalanceResult.reassigned 7 c)) := by
  have hval : validActiveCores (fun c => Except.ok (if c = 1 then "1" else "0")) [1, 2] =
      Except.ok [1] := by rfl
  refine ⟨by decide, by decide, by decide, hval, ?_⟩
  exact (c6_rebalancer_reassignment [1, 2] {5}
    (fun c => Except.ok (if c = 1 then "1" else "0")) ⟨7, 5, [5], false, false⟩
    (by decide) (by decide) (by decide)).1 rfl rfl [1] hval (by decide)

/-- C7 amended: failures of metric reads, kernel writes, and per-process
affinity operations are caught and the cycle completes, in cpualgo.py
unconditionally and in cpupowalgo.py whenever the fresh per-core online
verification reads of the rebalancer succeed. -/
theorem c7_error_containment_amended :
    (∀ (pick : Finset ℕ → ℕ) (env : EnvAlgo) (s : CoreState),
      exceptOk (cycle_algo pick env s) = true) ∧
    (∀ (pick : Finset ℕ → ℕ) (env : EnvPow) (s : CoreStateP),
      (∀ c, exceptOk (env.readOnline c) = true) →
      exceptOk (cycle_pow pick env s) = true) :=
  ⟨cycle_algo_ok, cycle_pow_ok_of_reads⟩

/-- C7 counterexample: in cpupowalgo.py a failing fresh online verification
read inside the rebalancer escapes every handler, so a cycle in which that
read fails aborts instead of completing: with one process off the active
list and every verification read failing, the cycle evaluates to an
uncaught error. -/
theorem c7_uncaught_read_failure_counterexample :
    exceptOk (cycle_pow (fun _ => 0) envPowFail ⟨[1], ∅⟩) = false := by
  have hds : manage_decision_pow (fun _ => 0) envPowFail.wr
      ⟨envPowFail.cpu_load, get_irq_count envPowFail.irqRead,
        get_ipc_pow envPowFail.perf⟩ ⟨[1], ∅⟩ = (⟨[1], ∅⟩, []) := by
    apply manage_pow_none_eq
    · rintro ⟨_, _, _, h4⟩
      norm_num [cpupowThresholds] at h4
    · exact Or.inr rfl
  rw [cycle_pow_isOk_eq, hds]
  rfl

/-- C7 witness: a cpualgo.py cycle with a failing interrupt read and failing
writes completes, and a cpupowalgo.py cycle whose verification reads all
succeed completes even with a process needing reassignment. -/
theorem c7_error_containment_amended_witness :
    exceptOk (cycle_algo (fun _ => 0)
      { cpu_load := 50, irqRead := Except.error (),
        wr := fun _ => WriteResult.writeError } ⟨{1, 2}, ∅⟩) = true ∧
    exceptOk (cycle_pow (fun _ => 0) envPowOk ⟨[1], ∅⟩) = true :=
  ⟨c7_error_containment_amended.1 _ _ _,
    c7_error_containment_amended.2 _ envPowOk _ (fun _ => rfl)⟩

/-- C9: a failed acquisition of the IRQ count or of the IPC degrades the
metric to the documented default 0, and the cycle carries on instead of
aborting. -/
theorem c9_metric_degradation :
    (∀ e : Unit, get_irq_count (Except.error e) = 0) ∧
    (∀ e : Unit, get_ipc_pow (Except.error e) = 0) ∧
    (∀ (pick : Finset ℕ → ℕ) (env : EnvAlgo) (s : CoreState),
      env.irqRead = Except.error () →
      exceptOk (cycle_algo pick env s) = true) ∧
    (∀ (pick : Finset ℕ → ℕ) (env : EnvPow) (s : CoreStateP),
      env.irqRead = Except.error () → env.perf = Except.error () →
      (∀ c, exceptOk (env.readOnline c) = true) →
      exceptOk (cycle_pow pick env s) = true) :=
  ⟨fun _ => rfl, fun _ => rfl,
    fun pick env s _ => cycle_algo_ok pick env s,
    fun pick env s _ _ h => cycle_pow_ok_of_reads pick env s h⟩

/-- C9 witness: both degraded getters evaluate to 0 on a failed read, and
cycles with failed acquisitions still complete. -/
theorem c9_metric_degradation_witness :
    get_irq_count (Except.error ()) = 0 ∧
    get_ipc_pow (Except.error ()) = 0 ∧
    exceptOk (cycle_algo (fun _ => 0)
      { cpu_load := 5, irqRead := Except.error (),
        wr := fun _ => WriteResult.ok } ⟨{1}, ∅⟩) = true ∧
    exceptOk (cycle_pow (fun _ => 0) envPowDegraded ⟨[1], ∅⟩) = true :=
  ⟨c9_metric_degradation.1 (), c9_metric_degradation.2.1 (),
    c9_metric_degradation.2.2.1 _ _ _ rfl,
    c9_metric_degradation.2.2.2 _ envPowDegraded _ rfl rfl (fun _ => rfl)⟩
